import Mathlib

/-!
Shallow embedding of the two front-end scripts of the TextualMOC repository:
the popup demo (`src/AladinGame/aladin_game_d1/js/script.js`, called variant d1
below) and the timed game script (second script, called d2 below).

JavaScript objects coming from the JSON region files are modelled as
association lists over string keys; the opaque JSON values are the type `Val`.
Module-level mutable variables of each script are gathered into an explicit
state record (`D1State` for the popup demo, `GameState` for the game), and each
event handler becomes a function on that state.  DOM effects are modelled by
string-valued fields (element text, display style) and audio playback by an
append-only log of sound events.
-/

/-- Opaque JSON values carried by the region records. -/
inductive Val where
  | str : String → Val
  | bool : Bool → Val
  | num : Int → Val
  | arr : List Val → Val

/-- A JavaScript object, as the ordered list of its own enumerable
string-keyed properties (`for ... in` iteration order). -/
def JSObj := List (String × Val)

/-- JavaScript property assignment `m[k] = v`: overwrite in place when the key
exists, append otherwise. -/
def jsSet (m : List (String × Val)) (k : String) (v : Val) : List (String × Val) :=
  match m with
  | [] => [(k, v)]
  | (k₁, v₁) :: rest => if k₁ = k then (k₁, v) :: rest else (k₁, v₁) :: jsSet rest k v

/-- Module-level state of the popup-demo script (variant d1):
`cursorInMOC`, `soundsEnabled`, `mocText`, the popup element and the audio
log.  (`moc` and `aladin` hold external-library objects and are omitted.) -/
structure D1State where
  cursorInMOC : Bool
  soundsEnabled : Bool
  mocText : Val
  popupDisplay : String
  popupText : Val
  soundsPlayed : List String

/-- Loop body of variant d1 `processMOCWithText`: a `text` property is stored
in the module-level `mocText` variable, every other property is copied into
the local `mocData` object. -/
def processStep (acc : List (String × Val) × D1State) (kv : String × Val) :
    List (String × Val) × D1State :=
  if kv.1 = "text" then (acc.1, { acc.2 with mocText := kv.2 })
  else (jsSet acc.1 kv.1 kv.2, acc.2)

/-- Variant d1 `processMOCWithText`: copies every property except `text` into
a fresh `mocData` object and stores the `text` value in the module-level
`mocText` variable. -/
def processMOCWithText (s : D1State) (mocWithText : List (String × Val)) :
    List (String × Val) × D1State :=
  mocWithText.foldl processStep ([], s)

/-- Loop body of the game-variant `processMOCWithText`: copies a property into
the local `mocData` object unless its key is `text` or `isTarget`. -/
def gameStep (mocData : List (String × Val)) (kv : String × Val) :
    List (String × Val) :=
  if kv.1 ≠ "text" ∧ kv.1 ≠ "isTarget" then jsSet mocData kv.1 kv.2 else mocData

/-- Game-variant `processMOCWithText`: copies every property whose key is
neither `text` nor `isTarget` into a fresh `mocData` object; no module state
is touched. -/
def processMOCWithTextGame (mocWithText : List (String × Val)) : List (String × Val) :=
  mocWithText.foldl gameStep []

/-- Variant d1 `mouseMove` handler.  `contains` is the external library's
point-in-region predicate for the single loaded MOC, and `pos` is the
delivered position (`none` models a null position). -/
def mouseMoveD1 (contains : Int × Int → Bool) (pos : Option (Int × Int))
    (s : D1State) : D1State :=
  match pos with
  | none => s
  | some p =>
    let isInMOC := contains p
    if isInMOC && !s.cursorInMOC then
      let s₁ := { s with cursorInMOC := true, popupDisplay := "block",
                         popupText := s.mocText }
      if s₁.soundsEnabled then { s₁ with soundsPlayed := s₁.soundsPlayed ++ ["enter"] }
      else s₁
    else if !isInMOC && s.cursorInMOC then
      let s₁ := { s with cursorInMOC := false, popupDisplay := "none" }
      if s₁.soundsEnabled then { s₁ with soundsPlayed := s₁.soundsPlayed ++ ["exit"] }
      else s₁
    else s

/-- Module-level state of the game script: the mutable flags and counters plus
the DOM elements and audio log it manipulates.  `timerActive` records whether
the `setInterval` countdown is currently installed, and `intervalsCreated`
counts calls to `setInterval`. -/
structure GameState where
  cursorInMOC : Bool
  gameStarted : Bool
  score : Int
  timeLeft : Int
  timerActive : Bool
  intervalsCreated : Nat
  popupDisplay : String
  popupText : String
  scoreDisplayText : String
  timerColor : String
  timeElementText : String
  countdownDisplay : String
  countdownText : String
  gameStatusText : String
  startButtonDisabled : Bool
  soundsPlayed : List String
  deriving DecidableEq, Repr

/-- `endGame(message)`: clear the interval, stop the game, re-enable the start
button, show the message and hide the countdown. -/
def endGame (message : String) (s : GameState) : GameState :=
  { s with timerActive := false, gameStarted := false, startButtonDisabled := false,
           gameStatusText := message, countdownDisplay := "none" }

/-- The body of the one-second `setInterval` callback installed by
`startGame`: decrement `timeLeft`, refresh the time display, switch the
styling in the last five seconds, and call `endGame` (with its default
message) at zero. -/
def timerTick (s : GameState) : GameState :=
  let s₁ := { s with timeLeft := s.timeLeft - 1 }
  let s₂ := { s₁ with timeElementText := toString s₁.timeLeft }
  let s₃ :=
    if s₂.timeLeft ≤ 5 then
      { s₂ with timerColor := "", countdownText := toString s₂.timeLeft,
                countdownDisplay := "block" }
    else
      { s₂ with timerColor := "white", countdownDisplay := "none" }
  if s₃.timeLeft ≤ 0 then
    endGame ("Time\x27s up! Final score: " ++ toString s₃.score) s₃
  else s₃

/-- `startGame`: return immediately if a game is already running, otherwise
reset score and time, refresh the displays, disable the start button and
install the countdown interval. -/
def startGame (s : GameState) : GameState :=
  if s.gameStarted then s
  else
    { s with gameStarted := true, score := 0, timeLeft := 30,
             scoreDisplayText := "Score: " ++ toString (0 : Int),
             timerColor := "white",
             timeElementText := toString (30 : Int),
             countdownDisplay := "none",
             gameStatusText := "Game in progress...",
             startButtonDisabled := true,
             timerActive := true,
             intervalsCreated := s.intervalsCreated + 1 }

/-- One entry of the game's `mocList`: the external-library region object
(kept only as its containment predicate) together with the record's `text`
and `isTarget` fields. -/
structure Item where
  contains : Int × Int → Bool
  text : String
  isTarget : Bool

/-- The body of the `mocList.forEach` loop in the game's `mouseMove` handler,
threading the local `found` flag and the module state. -/
def handleItem (pos : Int × Int) (acc : Bool × GameState) (item : Item) :
    Bool × GameState :=
  let isInMOC := item.contains pos
  if isInMOC then
    let s := acc.2
    let s₁ :=
      if item.isTarget && !s.cursorInMOC then
        let a := { s with score := s.score + 10 }
        let b := { a with scoreDisplayText := "Score: " ++ toString a.score }
        let c := { b with popupText := item.text, popupDisplay := "block" }
        let d := { c with soundsPlayed := c.soundsPlayed ++ ["success"] }
        endGame "Congratulations! You found the Large Magellanic Cloud!" d
      else if !item.isTarget && !s.cursorInMOC then
        let a := { s with popupText := item.text, popupDisplay := "block" }
        { a with soundsPlayed := a.soundsPlayed ++ ["error"] }
      else s
    (true, { s₁ with cursorInMOC := true })
  else acc

/-- Game-variant `mouseMove` handler: bail out on a null position or when the
game is not running, scan `mocList` in order, and hide the popup when the
cursor has left every region. -/
def mouseMoveGame (mocList : List Item) (pos : Option (Int × Int))
    (s : GameState) : GameState :=
  match pos with
  | none => s
  | some p =>
    if !s.gameStarted then s
    else
      let r := mocList.foldl (handleItem p) (false, s)
      if !r.1 && r.2.cursorInMOC then
        { r.2 with cursorInMOC := false, popupDisplay := "none" }
      else r.2

/-- The game's module state right after the page has loaded: no game running,
no interval installed. -/
def idleState : GameState :=
  { cursorInMOC := false, gameStarted := false, score := 0, timeLeft := 30,
    timerActive := false, intervalsCreated := 0, popupDisplay := "none",
    popupText := "", scoreDisplayText := "Score: 0", timerColor := "white",
    timeElementText := "30", countdownDisplay := "none", countdownText := "",
    gameStatusText := "", startButtonDisabled := false, soundsPlayed := [] }

/-- The game's module state during a running game with the cursor outside
every region, used to evaluate the handlers on concrete inputs. -/
def runningState : GameState :=
  { cursorInMOC := false, gameStarted := true, score := 0, timeLeft := 30,
    timerActive := true, intervalsCreated := 1, popupDisplay := "none",
    popupText := "", scoreDisplayText := "Score: 0", timerColor := "white",
    timeElementText := "30", countdownDisplay := "none", countdownText := "",
    gameStatusText := "Game in progress...", startButtonDisabled := true,
    soundsPlayed := [] }

/-- The popup demo's module state right after the page has loaded. -/
def d1Start : D1State :=
  { cursorInMOC := false, soundsEnabled := false, mocText := Val.str "",
    popupDisplay := "none", popupText := Val.str "", soundsPlayed := [] }

/-! ### Lemmas about the splitters -/

theorem jsSet_not_mem (m : List (String × Val)) (k : String) (v : Val)
    (h : k ∉ m.map Prod.fst) : jsSet m k v = m ++ [(k, v)] := by
  induction m with
  | nil => rfl
  | cons kv rest ih =>
    obtain ⟨k₁, v₁⟩ := kv
    simp only [List.map_cons, List.mem_cons, not_or] at h
    unfold jsSet
    rw [if_neg (fun he => h.1 he.symm), ih h.2]
    rfl

theorem foldl_gameStep_eq_filter (l : List (String × Val)) (init : List (String × Val))
    (hnd : (l.map Prod.fst).Nodup)
    (hdisj : ∀ k ∈ l.map Prod.fst, k ∉ init.map Prod.fst) :
    l.foldl gameStep init
      = init ++ l.filter (fun kv => kv.1 ≠ "text" ∧ kv.1 ≠ "isTarget") := by
  induction l generalizing init with
  | nil => simp
  | cons kv rest ih =>
    obtain ⟨k, v⟩ := kv
    simp only [List.map_cons, List.nodup_cons] at hnd
    have hrest : ∀ k₂ ∈ rest.map Prod.fst, k₂ ∉ init.map Prod.fst := by
      intro k₂ hk₂
      exact hdisj k₂ (by simp only [List.map_cons, List.mem_cons]; exact Or.inr hk₂)
    rw [List.foldl_cons]
    by_cases hk : k ≠ "text" ∧ k ≠ "isTarget"
    · have hstep : gameStep init (k, v) = init ++ [(k, v)] := by
        unfold gameStep
        rw [if_pos hk, jsSet_not_mem init k v (hdisj k (by simp))]
      have hrest₂ : ∀ k₂ ∈ rest.map Prod.fst, k₂ ∉ (init ++ [(k, v)]).map Prod.fst := by
        intro k₂ hk₂
        simp only [List.map_append, List.map_cons, List.map_nil, List.mem_append,
          List.mem_singleton, not_or]
        exact ⟨hrest k₂ hk₂, fun he => hnd.1 (he ▸ hk₂)⟩
      rw [hstep, ih (init ++ [(k, v)]) hnd.2 hrest₂]
      simp [List.filter_cons, hk]
    · have hstep : gameStep init (k, v) = init := by
        unfold gameStep
        rw [if_neg hk]
      rw [hstep, ih init hnd.2 hrest]
      simp [List.filter_cons, hk]

theorem foldl_processStep_snd (m : List (String × Val)) (init : List (String × Val))
    (s : D1State) :
    (m.foldl processStep (init, s)).2
      = { s with mocText := m.foldl (fun t kv => if kv.1 = "text" then kv.2 else t) s.mocText } := by
  induction m generalizing init s with
  | nil => rfl
  | cons kv rest ih =>
    rw [List.foldl_cons, List.foldl_cons]
    by_cases hk : kv.1 = "text"
    · show (rest.foldl processStep (processStep (init, s) kv)).2 = _
      rw [show processStep (init, s) kv = (init, { s with mocText := kv.2 }) from by
        unfold processStep; rw [if_pos hk]]
      rw [ih init { s with mocText := kv.2 }]
      simp [hk]
    · show (rest.foldl processStep (processStep (init, s) kv)).2 = _
      rw [show processStep (init, s) kv = (jsSet init kv.1 kv.2, s) from by
        unfold processStep; rw [if_neg hk]]
      rw [ih (jsSet init kv.1 kv.2) s]
      simp [hk]

theorem foldl_processStep_fst (m : List (String × Val)) (init : List (String × Val))
    (s : D1State) (hnd : (m.map Prod.fst).Nodup)
    (hdisj : ∀ k ∈ m.map Prod.fst, k ∉ init.map Prod.fst) :
    (m.foldl processStep (init, s)).1 = init ++ m.filter (fun kv => kv.1 ≠ "text") := by
  induction m generalizing init s with
  | nil => simp
  | cons kv rest ih =>
    obtain ⟨k, v⟩ := kv
    simp only [List.map_cons, List.nodup_cons] at hnd
    have hrest : ∀ k₂ ∈ rest.map Prod.fst, k₂ ∉ init.map Prod.fst := by
      intro k₂ hk₂
      exact hdisj k₂ (by simp only [List.map_cons, List.mem_cons]; exact Or.inr hk₂)
    rw [List.foldl_cons]
    by_cases hk : k = "text"
    · rw [show processStep (init, s) (k, v) = (init, { s with mocText := v }) from by
        unfold processStep; rw [if_pos hk]]
      rw [ih init _ hnd.2 hrest]
      simp [List.filter_cons, hk]
    · have hrest₂ : ∀ k₂ ∈ rest.map Prod.fst, k₂ ∉ (init ++ [(k, v)]).map Prod.fst := by
        intro k₂ hk₂
        simp only [List.map_append, List.map_cons, List.map_nil, List.mem_append,
          List.mem_singleton, not_or]
        exact ⟨hrest k₂ hk₂, fun he => hnd.1 (he ▸ hk₂)⟩
      rw [show processStep (init, s) (k, v) = (init ++ [(k, v)], s) from by
        unfold processStep
        rw [if_neg hk, jsSet_not_mem init k v (hdisj k (by simp))]]
      rw [ih (init ++ [(k, v)]) s hnd.2 hrest₂]
      simp [List.filter_cons, hk]

/-! ### Lemmas about the game's mouseMove handler -/

theorem cursorInMOC_set_self (s : GameState) (h : s.cursorInMOC = true) :
    { s with cursorInMOC := true } = s := by
  cases s
  simp_all

theorem foldl_handleItem_skip (pos : Int × Int) (l : List Item)
    (h : ∀ itm ∈ l, itm.contains pos = false) (acc : Bool × GameState) :
    l.foldl (handleItem pos) acc = acc := by
  induction l generalizing acc with
  | nil => rfl
  | cons itm rest ih =>
    rw [List.foldl_cons]
    have hstep : handleItem pos acc itm = acc := by
      simp [handleItem, h itm (by simp)]
    rw [hstep]
    exact ih (fun i hi => h i (by simp [hi])) acc

theorem foldl_handleItem_cursorIn (pos : Int × Int) (l : List Item) (s : GameState)
    (h : s.cursorInMOC = true) :
    l.foldl (handleItem pos) (true, s) = (true, s) := by
  induction l with
  | nil => rfl
  | cons itm rest ih =>
    rw [List.foldl_cons]
    have hstep : handleItem pos (true, s) itm = (true, s) := by
      cases hc : itm.contains pos
      · simp [handleItem, hc]
      · simp [handleItem, hc, h, cursorInMOC_set_self s h]
    rw [hstep]
    exact ih

theorem handleItem_enters (pos : Int × Int) (itm : Item) (s : GameState)
    (hc : itm.contains pos = true) :
    (handleItem pos (false, s) itm).1 = true ∧
    (handleItem pos (false, s) itm).2.cursorInMOC = true := by
  simp [handleItem, hc]

/-! ### Claim theorems -/

/-- C1: For every input record, the region-text splitter `processMOCWithText`
returns a record that contains exactly the input's fields minus the `text`
field (and, in the game variant, minus the `isTarget` field), with every
remaining field bound to the same value as in the input. -/
theorem splitter_removes_exactly_text_and_isTarget
    (m : List (String × Val)) (s : D1State) (hnd : (m.map Prod.fst).Nodup) :
    (processMOCWithText s m).1 = m.filter (fun kv => kv.1 ≠ "text") ∧
    processMOCWithTextGame m
      = m.filter (fun kv => kv.1 ≠ "text" ∧ kv.1 ≠ "isTarget") := by
  constructor
  · have h := foldl_processStep_fst m [] s hnd (by simp)
    simpa [processMOCWithText] using h
  · have h := foldl_gameStep_eq_filter m [] hnd (by simp)
    simpa [processMOCWithTextGame] using h

/-- Witness for C1 on a concrete three-field record. -/
theorem splitter_removes_exactly_text_and_isTarget_witness :
    (([("moc", Val.num 1), ("text", Val.str "hi"),
       ("isTarget", Val.bool true)].map Prod.fst).Nodup) ∧
    ((processMOCWithText d1Start
        [("moc", Val.num 1), ("text", Val.str "hi"), ("isTarget", Val.bool true)]).1
      = [("moc", Val.num 1), ("text", Val.str "hi"),
         ("isTarget", Val.bool true)].filter (fun kv => kv.1 ≠ "text") ∧
     processMOCWithTextGame
        [("moc", Val.num 1), ("text", Val.str "hi"), ("isTarget", Val.bool true)]
      = [("moc", Val.num 1), ("text", Val.str "hi"),
         ("isTarget", Val.bool true)].filter
          (fun kv => kv.1 ≠ "text" ∧ kv.1 ≠ "isTarget")) :=
  ⟨by decide, splitter_removes_exactly_text_and_isTarget _ d1Start (by decide)⟩

/-- C7 counterexample: the variant d1 splitter does write a module-level
variable: on the record `[("text", "hello")]` it overwrites `mocText`. -/
theorem splitterD1_mocText_write_cex :
    (processMOCWithText d1Start [("text", Val.str "hello")]).2.mocText
      = Val.str "hello" ∧ Val.str "hello" ≠ Val.str "" := by
  refine ⟨rfl, fun h => ?_⟩
  injection h with h
  exact absurd h (by decide)

/-- C7 (amended): both splitters are total functions of their argument; the
game-variant splitter touches no module state at all, and the variant d1
splitter's only module-state effect is to store the record's last `text`
value in `mocText`, leaving every other module-level variable unchanged. -/
theorem splitter_total_and_only_mocText_effect
    (s : D1State) (m : List (String × Val)) :
    (processMOCWithText s m).2.cursorInMOC = s.cursorInMOC ∧
    (processMOCWithText s m).2.soundsEnabled = s.soundsEnabled ∧
    (processMOCWithText s m).2.popupDisplay = s.popupDisplay ∧
    (processMOCWithText s m).2.popupText = s.popupText ∧
    (processMOCWithText s m).2.soundsPlayed = s.soundsPlayed ∧
    (processMOCWithText s m).2.mocText
      = m.foldl (fun t kv => if kv.1 = "text" then kv.2 else t) s.mocText := by
  have h := foldl_processStep_snd m [] s
  unfold processMOCWithText
  rw [h]
  exact ⟨rfl, rfl, rfl, rfl, rfl, rfl⟩

/-- C9: a pointer-move event that delivers no position is a no-op in both
variants: the entire module state is returned unchanged and no sound is
appended to the audio log. -/
theorem null_position_is_noop
    (mocList : List Item) (s : GameState)
    (contains : Int × Int → Bool) (s₁ : D1State) :
    mouseMoveGame mocList none s = s ∧ mouseMoveD1 contains none s₁ = s₁ :=
  ⟨rfl, rfl⟩

/-- C10: calling `startGame` while a game is already running returns
immediately: the whole module state (score, time, interval, flags, DOM
fields) is unchanged and no new interval is created. -/
theorem startGame_reentry_is_noop (s : GameState) (h : s.gameStarted = true) :
    startGame s = s := by
  unfold startGame
  rw [if_pos h]

/-- Witness for C10 at a concrete running state. -/
theorem startGame_reentry_is_noop_witness :
    runningState.gameStarted = true ∧ startGame runningState = runningState :=
  ⟨rfl, startGame_reentry_is_noop runningState rfl⟩

/-- C5 counterexample: `startGame` called with the game stopped but the
cursor flag still set leaves `cursorInMOC` at `true`; the flag is not reset
to its initial game value `false`. -/
theorem startGame_cursorInMOC_not_reset_cex :
    ({ runningState with gameStarted := false,
                         cursorInMOC := true } : GameState).gameStarted = false ∧
    (startGame { runningState with gameStarted := false,
                                   cursorInMOC := true }).cursorInMOC = true := by
  exact ⟨rfl, rfl⟩

/-- C5 (amended): `startGame` from a stopped game resets `gameStarted` to
`true`, `score` to `0` and `timeLeft` to `30`, but does not reset
`cursorInMOC`, which keeps its prior value. -/
theorem startGame_resets_all_but_cursorInMOC
    (s : GameState) (h : s.gameStarted = false) :
    (startGame s).gameStarted = true ∧ (startGame s).score = 0 ∧
    (startGame s).timeLeft = 30 ∧ (startGame s).cursorInMOC = s.cursorInMOC := by
  unfold startGame
  rw [if_neg (by rw [h]; exact Bool.false_ne_true)]
  exact ⟨rfl, rfl, rfl, rfl⟩

/-- Witness for the amended C5 at a concrete stopped state. -/
theorem startGame_resets_all_but_cursorInMOC_witness :
    idleState.gameStarted = false ∧
    ((startGame idleState).gameStarted = true ∧ (startGame idleState).score = 0 ∧
     (startGame idleState).timeLeft = 30 ∧
     (startGame idleState).cursorInMOC = idleState.cursorInMOC) :=
  ⟨rfl, startGame_resets_all_but_cursorInMOC idleState rfl⟩

/-- C2 counterexample: with a non-target decoy region before the target in
`mocList`, a pointer-move inside the target (here both regions cover the
whole sky) neither scores nor ends the game: score stays 0 and
`gameStarted` stays `true`, because the decoy is processed first and sets
`cursorInMOC`. -/
theorem target_behind_decoy_not_scored_cex :
    (mouseMoveGame
        [⟨fun _ => true, "decoy", false⟩, ⟨fun _ => true, "LMC", true⟩]
        (some (0, 0)) runningState).score = 0 ∧
    (mouseMoveGame
        [⟨fun _ => true, "decoy", false⟩, ⟨fun _ => true, "LMC", true⟩]
        (some (0, 0)) runningState).gameStarted = true ∧
    runningState.gameStarted = true ∧ runningState.cursorInMOC = false ∧
    runningState.score = 0 ∧
    (Item.mk (fun _ => true) "LMC" true).isTarget = true ∧
    (Item.mk (fun _ => true) "LMC" true).contains (0, 0) = true := by
  exact ⟨rfl, rfl, rfl, rfl, rfl, rfl, rfl⟩

/-- C2 (amended): while `gameStarted` is true and `cursorInMOC` is false, if
the target region contains the position and no region before it in list
order does, the handler increases `score` by exactly 10 (once, even if later
list entries also contain the position) and ends the session: `gameStarted`
becomes false and the interval is cleared. -/
theorem enter_target_first_scores_ten_and_ends
    (pre post : List Item) (tgt : Item) (s : GameState) (pos : Int × Int)
    (hg : s.gameStarted = true) (hcur : s.cursorInMOC = false)
    (hpre : ∀ itm ∈ pre, itm.contains pos = false)
    (ht : tgt.isTarget = true) (hcont : tgt.contains pos = true) :
    (mouseMoveGame (pre ++ tgt :: post) (some pos) s).score = s.score + 10 ∧
    (mouseMoveGame (pre ++ tgt :: post) (some pos) s).gameStarted = false ∧
    (mouseMoveGame (pre ++ tgt :: post) (some pos) s).timerActive = false ∧
    (mouseMoveGame (pre ++ tgt :: post) (some pos) s).soundsPlayed
      = s.soundsPlayed ++ ["success"] := by
  have key : mouseMoveGame (pre ++ tgt :: post) (some pos) s
      = (handleItem pos (false, s) tgt).2 := by
    simp only [mouseMoveGame, hg, Bool.not_true, Bool.false_eq_true, if_false]
    rw [List.foldl_append, foldl_handleItem_skip pos pre hpre, List.foldl_cons]
    obtain ⟨h1, h2⟩ := handleItem_enters pos tgt s hcont
    have he : handleItem pos (false, s) tgt
        = (true, (handleItem pos (false, s) tgt).2) := Prod.ext h1 rfl
    rw [he, foldl_handleItem_cursorIn pos post _ h2]
    simp
  rw [key]
  refine ⟨?_, ?_, ?_, ?_⟩ <;> simp [handleItem, endGame, hcont, ht, hcur]

/-- Witness for the amended C2: a single all-sky target region. -/
theorem enter_target_first_scores_ten_and_ends_witness :
    runningState.gameStarted = true ∧ runningState.cursorInMOC = false ∧
    (∀ itm ∈ ([] : List Item), itm.contains (0, 0) = false) ∧
    (⟨fun _ => true, "LMC", true⟩ : Item).isTarget = true ∧
    (⟨fun _ => true, "LMC", true⟩ : Item).contains (0, 0) = true ∧
    ((mouseMoveGame ([] ++ (⟨fun _ => true, "LMC", true⟩ : Item) :: [])
        (some (0, 0)) runningState).score = runningState.score + 10 ∧
     (mouseMoveGame ([] ++ (⟨fun _ => true, "LMC", true⟩ : Item) :: [])
        (some (0, 0)) runningState).gameStarted = false ∧
     (mouseMoveGame ([] ++ (⟨fun _ => true, "LMC", true⟩ : Item) :: [])
        (some (0, 0)) runningState).timerActive = false ∧
     (mouseMoveGame ([] ++ (⟨fun _ => true, "LMC", true⟩ : Item) :: [])
        (some (0, 0)) runningState).soundsPlayed
       = runningState.soundsPlayed ++ ["success"]) :=
  ⟨rfl, rfl, by simp, rfl, rfl,
   enter_target_first_scores_ten_and_ends [] [] _ runningState (0, 0)
     rfl rfl (by simp) rfl rfl⟩

/-- C6: when the cursor enters overlapping regions (`cursorInMOC` false at
event start), the handler's entire effect is that of the first containing
region in list order: the final state equals the one obtained by running the
handler on that region alone, so later list entries contribute no score
change, popup update or sound. -/
theorem first_containing_region_determines_action
    (pre post : List Item) (itm₀ : Item) (s : GameState) (pos : Int × Int)
    (hcur : s.cursorInMOC = false)
    (hpre : ∀ itm ∈ pre, itm.contains pos = false)
    (hcont : itm₀.contains pos = true) :
    mouseMoveGame (pre ++ itm₀ :: post) (some pos) s
      = mouseMoveGame [itm₀] (some pos) s := by
  cases hg : s.gameStarted
  · simp [mouseMoveGame, hg]
  · simp only [mouseMoveGame, hg, Bool.not_true, Bool.false_eq_true, if_false]
    rw [List.foldl_append, foldl_handleItem_skip pos pre hpre, List.foldl_cons,
      List.foldl_cons]
    obtain ⟨h1, h2⟩ := handleItem_enters pos itm₀ s hcont
    have he : handleItem pos (false, s) itm₀
        = (true, (handleItem pos (false, s) itm₀).2) := Prod.ext h1 rfl
    rw [he, foldl_handleItem_cursorIn pos post _ h2]
    rfl

/-- Witness for C6: two overlapping all-sky regions; the second contributes
nothing. -/
theorem first_containing_region_determines_action_witness :
    runningState.cursorInMOC = false ∧
    (∀ itm ∈ ([] : List Item), itm.contains (0, 0) = false) ∧
    (⟨fun _ => true, "decoy", false⟩ : Item).contains (0, 0) = true ∧
    mouseMoveGame
        ([] ++ (⟨fun _ => true, "decoy", false⟩ : Item)
          :: [(⟨fun _ => true, "LMC", true⟩ : Item)])
        (some (0, 0)) runningState
      = mouseMoveGame [⟨fun _ => true, "decoy", false⟩] (some (0, 0)) runningState :=
  ⟨rfl, by simp, rfl,
   first_containing_region_determines_action [] [⟨fun _ => true, "LMC", true⟩]
     _ runningState (0, 0) rfl (by simp) rfl⟩

/-- C8 counterexample: with the target region before the non-target one in
`mocList` and both containing the position, a pointer-move "inside a
non-target region" ends the session and changes the score: the target is
processed first. -/
theorem nontarget_behind_target_ends_session_cex :
    (mouseMoveGame
        [⟨fun _ => true, "LMC", true⟩, ⟨fun _ => true, "decoy", false⟩]
        (some (0, 0)) runningState).gameStarted = false ∧
    (mouseMoveGame
        [⟨fun _ => true, "LMC", true⟩, ⟨fun _ => true, "decoy", false⟩]
        (some (0, 0)) runningState).score = 10 ∧
    (mouseMoveGame
        [⟨fun _ => true, "LMC", true⟩, ⟨fun _ => true, "decoy", false⟩]
        (some (0, 0)) runningState).popupText = "LMC" ∧
    runningState.gameStarted = true ∧ runningState.cursorInMOC = false ∧
    runningState.score = 0 ∧
    (Item.mk (fun _ => true) "decoy" false).isTarget = false ∧
    (Item.mk (fun _ => true) "decoy" false).contains (0, 0) = true := by
  exact ⟨rfl, rfl, rfl, rfl, rfl, rfl, rfl, rfl⟩

/-- C8 (amended): while the session is active and `cursorInMOC` is false, if
a non-target region contains the position and no region before it in list
order does, the handler sets the popup text to that region's text, shows the
popup, plays the error cue, and leaves the session active with the score
unchanged and the interval untouched. -/
theorem enter_nontarget_first_shows_text_and_keeps_session
    (pre post : List Item) (nt : Item) (s : GameState) (pos : Int × Int)
    (hg : s.gameStarted = true) (hcur : s.cursorInMOC = false)
    (hpre : ∀ itm ∈ pre, itm.contains pos = false)
    (hnt : nt.isTarget = false) (hcont : nt.contains pos = true) :
    (mouseMoveGame (pre ++ nt :: post) (some pos) s).popupText = nt.text ∧
    (mouseMoveGame (pre ++ nt :: post) (some pos) s).popupDisplay = "block" ∧
    (mouseMoveGame (pre ++ nt :: post) (some pos) s).soundsPlayed
      = s.soundsPlayed ++ ["error"] ∧
    (mouseMoveGame (pre ++ nt :: post) (some pos) s).gameStarted = true ∧
    (mouseMoveGame (pre ++ nt :: post) (some pos) s).timerActive = s.timerActive ∧
    (mouseMoveGame (pre ++ nt :: post) (some pos) s).score = s.score := by
  have key : mouseMoveGame (pre ++ nt :: post) (some pos) s
      = (handleItem pos (false, s) nt).2 := by
    simp only [mouseMoveGame, hg, Bool.not_true, Bool.false_eq_true, if_false]
    rw [List.foldl_append, foldl_handleItem_skip pos pre hpre, List.foldl_cons]
    obtain ⟨h1, h2⟩ := handleItem_enters pos nt s hcont
    have he : handleItem pos (false, s) nt
        = (true, (handleItem pos (false, s) nt).2) := Prod.ext h1 rfl
    rw [he, foldl_handleItem_cursorIn pos post _ h2]
    simp
  rw [key]
  refine ⟨?_, ?_, ?_, ?_, ?_, ?_⟩ <;> simp [handleItem, hcont, hnt, hcur, hg]

/-- Witness for the amended C8: a single all-sky non-target region. -/
theorem enter_nontarget_first_shows_text_and_keeps_session_witness :
    runningState.gameStarted = true ∧ runningState.cursorInMOC = false ∧
    (∀ itm ∈ ([] : List Item), itm.contains (0, 0) = false) ∧
    (⟨fun _ => true, "decoy", false⟩ : Item).isTarget = false ∧
    (⟨fun _ => true, "decoy", false⟩ : Item).contains (0, 0) = true ∧
    ((mouseMoveGame ([] ++ (⟨fun _ => true, "decoy", false⟩ : Item) :: [])
        (some (0, 0)) runningState).popupText = "decoy" ∧
     (mouseMoveGame ([] ++ (⟨fun _ => true, "decoy", false⟩ : Item) :: [])
        (some (0, 0)) runningState).popupDisplay = "block" ∧
     (mouseMoveGame ([] ++ (⟨fun _ => true, "decoy", false⟩ : Item) :: [])
        (some (0, 0)) runningState).soundsPlayed
       = runningState.soundsPlayed ++ ["error"] ∧
     (mouseMoveGame ([] ++ (⟨fun _ => true, "decoy", false⟩ : Item) :: [])
        (some (0, 0)) runningState).gameStarted = true ∧
     (mouseMoveGame ([] ++ (⟨fun _ => true, "decoy", false⟩ : Item) :: [])
        (some (0, 0)) runningState).timerActive = runningState.timerActive ∧
     (mouseMoveGame ([] ++ (⟨fun _ => true, "decoy", false⟩ : Item) :: [])
        (some (0, 0)) runningState).score = runningState.score) :=
  ⟨rfl, rfl, by simp, rfl, rfl,
   enter_nontarget_first_shows_text_and_keeps_session [] [] _ runningState (0, 0)
     rfl rfl (by simp) rfl rfl⟩

/-- C3 counterexample: a pointer-move outside every region does not always
hide the popup.  Three concrete prior states keep a visible popup visible:
the game variant with the game stopped (the handler returns at its guard),
the game variant with `cursorInMOC` false (the exit branch does not fire),
and variant d1 with `cursorInMOC` false (same reason). -/
theorem popup_not_hidden_outside_regions_cex :
    (Item.mk (fun _ => false) "decoy" false).contains (0, 0) = false ∧
    (fun (_ : Int × Int) => false) (0, 0) = false ∧
    (mouseMoveGame [Item.mk (fun _ => false) "decoy" false] (some (0, 0))
        { runningState with gameStarted := false, cursorInMOC := true,
                            popupDisplay := "block" }).popupDisplay = "block" ∧
    (mouseMoveGame [Item.mk (fun _ => false) "decoy" false] (some (0, 0))
        { runningState with cursorInMOC := false,
                            popupDisplay := "block" }).popupDisplay = "block" ∧
    (mouseMoveD1 (fun _ => false) (some (0, 0))
        { d1Start with cursorInMOC := false,
                       popupDisplay := "block" }).popupDisplay = "block" :=
  ⟨rfl, rfl, rfl, rfl, rfl⟩

/-- C3 (amended): for a pointer-move whose position lies outside all regions:
in the game variant, when `gameStarted` and `cursorInMOC` are both true the
popup's display is `none` afterwards, and when `gameStarted` is false or
`cursorInMOC` is false the handler leaves the whole state (so also the
popup's display) unchanged; in variant d1, when `cursorInMOC` is true the
popup's display is `none` afterwards, and when `cursorInMOC` is false the
state is unchanged. -/
theorem leaving_all_regions_hides_popup
    (mocList : List Item) (pos : Int × Int) (s : GameState)
    (hout : ∀ itm ∈ mocList, itm.contains pos = false)
    (contains₁ : Int × Int → Bool) (pos₁ : Int × Int) (s₁ : D1State)
    (hout₁ : contains₁ pos₁ = false) :
    (s.gameStarted = true → s.cursorInMOC = true →
      (mouseMoveGame mocList (some pos) s).popupDisplay = "none") ∧
    (s.gameStarted = false → mouseMoveGame mocList (some pos) s = s) ∧
    (s.cursorInMOC = false → mouseMoveGame mocList (some pos) s = s) ∧
    (s₁.cursorInMOC = true →
      (mouseMoveD1 contains₁ (some pos₁) s₁).popupDisplay = "none") ∧
    (s₁.cursorInMOC = false → mouseMoveD1 contains₁ (some pos₁) s₁ = s₁) := by
  refine ⟨?_, ?_, ?_, ?_, ?_⟩
  · intro hg hcur
    simp only [mouseMoveGame, hg, Bool.not_true, Bool.false_eq_true, if_false]
    rw [foldl_handleItem_skip pos mocList hout]
    simp [hcur]
  · intro hg
    simp [mouseMoveGame, hg]
  · intro hcur
    cases hg : s.gameStarted
    · simp [mouseMoveGame, hg]
    · simp only [mouseMoveGame, hg, Bool.not_true, Bool.false_eq_true, if_false]
      rw [foldl_handleItem_skip pos mocList hout]
      simp [hcur]
  · intro hcur₁
    cases hse : s₁.soundsEnabled <;>
      simp [mouseMoveD1, hout₁, hcur₁, hse]
  · intro hcur₁
    simp [mouseMoveD1, hout₁, hcur₁]

/-- Witness for the amended C3 at concrete states of both variants. -/
theorem leaving_all_regions_hides_popup_witness :
    (∀ itm ∈ [Item.mk (fun _ => false) "decoy" false],
        itm.contains (0, 0) = false) ∧
    (fun (_ : Int × Int) => false) (0, 0) = false ∧
    ((({ runningState with cursorInMOC := true,
                           popupDisplay := "block" } : GameState).gameStarted = true →
      ({ runningState with cursorInMOC := true,
                           popupDisplay := "block" } : GameState).cursorInMOC = true →
      (mouseMoveGame [Item.mk (fun _ => false) "decoy" false] (some (0, 0))
          { runningState with cursorInMOC := true,
                              popupDisplay := "block" }).popupDisplay = "none") ∧
     (({ runningState with cursorInMOC := true,
                           popupDisplay := "block" } : GameState).gameStarted = false →
      mouseMoveGame [Item.mk (fun _ => false) "decoy" false] (some (0, 0))
          { runningState with cursorInMOC := true, popupDisplay := "block" }
        = { runningState with cursorInMOC := true, popupDisplay := "block" }) ∧
     (({ runningState with cursorInMOC := true,
                           popupDisplay := "block" } : GameState).cursorInMOC = false →
      mouseMoveGame [Item.mk (fun _ => false) "decoy" false] (some (0, 0))
          { runningState with cursorInMOC := true, popupDisplay := "block" }
        = { runningState with cursorInMOC := true, popupDisplay := "block" }) ∧
     (({ d1Start with cursorInMOC := true,
                      popupDisplay := "block" } : D1State).cursorInMOC = true →
      (mouseMoveD1 (fun _ => false) (some (0, 0))
          { d1Start with cursorInMOC := true,
                         popupDisplay := "block" }).popupDisplay = "none") ∧
     (({ d1Start with cursorInMOC := true,
                      popupDisplay := "block" } : D1State).cursorInMOC = false →
      mouseMoveD1 (fun _ => false) (some (0, 0))
          { d1Start with cursorInMOC := true, popupDisplay := "block" }
        = { d1Start with cursorInMOC := true, popupDisplay := "block" })) :=
  ⟨by simp, rfl,
   leaving_all_regions_hides_popup [Item.mk (fun _ => false) "decoy" false]
     (0, 0) _ (by simp) (fun _ => false) (0, 0) _ rfl⟩

/-! ### Lemmas about the countdown -/

theorem timerTick_step (t : GameState) (h2 : 2 ≤ t.timeLeft) :
    (timerTick t).timeLeft = t.timeLeft - 1 ∧
    (timerTick t).timerActive = t.timerActive ∧
    (timerTick t).gameStarted = t.gameStarted ∧
    (timerTick t).startButtonDisabled = t.startButtonDisabled ∧
    (timerTick t).score = t.score := by
  simp only [timerTick]
  split_ifs with h5 h0 h0
  · simp only at h0
    omega
  · exact ⟨rfl, rfl, rfl, rfl, rfl⟩
  · simp only at h0
    omega
  · exact ⟨rfl, rfl, rfl, rfl, rfl⟩

theorem timerTick_at_one (t : GameState) (h1 : t.timeLeft = 1) :
    (timerTick t).timeLeft = 0 ∧ (timerTick t).timerActive = false ∧
    (timerTick t).gameStarted = false ∧
    (timerTick t).startButtonDisabled = false := by
  simp [timerTick, endGame, h1]

theorem timerTick_iter_running (s : GameState) (h : s.gameStarted = false) :
    ∀ k : Nat, k ≤ 29 →
      (timerTick^[k] (startGame s)).timeLeft = 30 - (k : Int) ∧
      (timerTick^[k] (startGame s)).timerActive = true ∧
      (timerTick^[k] (startGame s)).gameStarted = true ∧
      (timerTick^[k] (startGame s)).startButtonDisabled = true := by
  intro k
  induction k with
  | zero =>
    intro _
    refine ⟨?_, ?_, ?_, ?_⟩ <;> simp [startGame, h]
  | succ n ih =>
    intro hk
    obtain ⟨h1, h2, h3, h4⟩ := ih (by omega)
    rw [Function.iterate_succ_apply']
    have h2le : 2 ≤ (timerTick^[n] (startGame s)).timeLeft := by
      rw [h1]
      have : (n : Int) ≤ 28 := by exact_mod_cast (by omega : n ≤ 28)
      omega
    obtain ⟨t1, t2, t3, t4, _⟩ := timerTick_step _ h2le
    refine ⟨?_, ?_, ?_, ?_⟩
    · rw [t1, h1]
      push_cast
      ring
    · rw [t2, h2]
    · rw [t3, h3]
    · rw [t4, h4]

/-- C4: starting a stopped game sets `timeLeft = 30`; with no pointer events
in between, after exactly 30 executions of the one-second callback
`timeLeft` is 0 and `endGame` has run (the interval is cleared, the game
flag dropped, the start control re-enabled), while after any smaller number
of ticks the interval is still installed and the game still running. -/
theorem countdown_ends_exactly_on_tick_thirty
    (s : GameState) (h : s.gameStarted = false) :
    (timerTick^[30] (startGame s)).timeLeft = 0 ∧
    (timerTick^[30] (startGame s)).timerActive = false ∧
    (timerTick^[30] (startGame s)).gameStarted = false ∧
    (timerTick^[30] (startGame s)).startButtonDisabled = false ∧
    ∀ k : Nat, k < 30 →
      (timerTick^[k] (startGame s)).timerActive = true ∧
      (timerTick^[k] (startGame s)).gameStarted = true := by
  have h29 := timerTick_iter_running s h 29 (by omega)
  have heq : timerTick^[30] (startGame s)
      = timerTick (timerTick^[29] (startGame s)) := by
    have h30 : (30 : Nat) = 29 + 1 := by norm_num
    rw [h30, Function.iterate_succ_apply']
  have hone : (timerTick^[29] (startGame s)).timeLeft = 1 := by
    rw [h29.1]
    norm_num
  obtain ⟨f1, f2, f3, f4⟩ := timerTick_at_one _ hone
  refine ⟨by rw [heq, f1], by rw [heq, f2], by rw [heq, f3], by rw [heq, f4], ?_⟩
  intro k hk
  have hkk := timerTick_iter_running s h k (by omega)
  exact ⟨hkk.2.1, hkk.2.2.1⟩

/-- Witness for C4 from the concrete idle state. -/
theorem countdown_ends_exactly_on_tick_thirty_witness :
    idleState.gameStarted = false ∧
    ((timerTick^[30] (startGame idleState)).timeLeft = 0 ∧
     (timerTick^[30] (startGame idleState)).timerActive = false ∧
     (timerTick^[30] (startGame idleState)).gameStarted = false ∧
     (timerTick^[30] (startGame idleState)).startButtonDisabled = false ∧
     ∀ k : Nat, k < 30 →
       (timerTick^[k] (startGame idleState)).timerActive = true ∧
       (timerTick^[k] (startGame idleState)).gameStarted = true) :=
  ⟨rfl, countdown_ends_exactly_on_tick_thirty idleState rfl⟩
